import Mathlib

/-!
Verification development for the PGIP plugin registry and runtime.

The repository ships the frontend client (`src/frontend/src/api/client.ts`,
`src/frontend/src/pages/*.tsx`), the Nextflow ingest pipeline
(`src/workflows/nextflow/ingest_pangenome.nf`) and the written plugin
contract.  The backend core (manifest validator, registry store, execution
orchestrator) is described by the specification but its code is not part of
the repository snapshot, so those operations are modelled from the spec and
marked as such on each definition.  The frontend client functions and the
two Nextflow processes are embedded directly from the source.
-/

set_option maxHeartbeats 1000000

namespace PGIP

/-- Modelled from the spec: the closed set of parameter types
(`float`, `int`, `string`, `bool`). -/
inductive ParamType where
  | float
  | int
  | string
  | bool
deriving DecidableEq, Repr

/-- Modelled from the spec: a scalar value that can appear as a parameter
default or as a runtime parameter value.  Decimal literals are represented
exactly as `mantissa * 10 ^ (-scale)` to stay free of floating point. -/
inductive ParamValue where
  | pFloat (mantissa : Int) (scale : Nat)
  | pInt (n : Int)
  | pStr (s : String)
  | pBool (b : Bool)
deriving DecidableEq, Repr

/-- Modelled from the spec: a value is convertible to a declared parameter
type without loss (an integer literal is a lossless float). -/
def typeAccepts : ParamType → ParamValue → Bool
  | .float, .pFloat _ _ => true
  | .float, .pInt _ => true
  | .int, .pInt _ => true
  | .string, .pStr _ => true
  | .bool, .pBool _ => true
  | _, _ => false

/-- Modelled from the spec: an input or output declaration of a manifest. -/
structure IOPort where
  name : String
  description : String
  media_type : String
  optional : Bool := false
deriving DecidableEq, Repr

/-- Modelled from the spec: a declared plugin parameter. -/
structure Parameter where
  name : String
  type : ParamType
  default : Option ParamValue := none
  description : String := ""
deriving DecidableEq, Repr

/-- Modelled from the spec: provenance block of a manifest. -/
structure Provenance where
  container_image : String
  container_digest : Option String := none
  repository_url : Option String := none
  reference : Option String := none
deriving DecidableEq, Repr

/-- Modelled from the spec: advisory resource request of a manifest. -/
structure ResourceSpec where
  cpu : String
  memory : String
  gpu : Bool := false
deriving DecidableEq, Repr

/-- Modelled from the spec: informational compliance entry. -/
structure ComplianceEntry where
  license : String
  url : String
deriving DecidableEq, Repr

/-- Modelled from the spec: the typed manifest model (identity, attributes,
ports, provenance, resources, parameters, compliance). -/
structure Manifest where
  name : String
  version : String
  summary : String
  long_description : Option String := none
  entrypoint : String
  created_at : String
  updated_at : String
  authors : List String
  tags : List String
  inputs : List IOPort
  outputs : List IOPort
  provenance : Provenance
  resources : Option ResourceSpec := none
  parameters : List Parameter := []
  compliance : List ComplianceEntry := []
deriving DecidableEq, Repr

/-- Split a character list at every occurrence of `sep`, keeping empty
chunks — the semantics of Python `str.split(sep)` and of `String.splitOn`
for a single-character separator, written structurally. -/
def splitOnChar (sep : Char) : List Char → List (List Char)
  | [] => [[]]
  | c :: t =>
    let r := splitOnChar sep t
    if c = sep then [] :: r
    else
      match r with
      | h :: t2 => (c :: h) :: t2
      | [] => [[c]]

/-- Split a string at every occurrence of the character `sep`. -/
def strSplitChar (sep : Char) (s : String) : List String :=
  (splitOnChar sep s.toList).map String.mk

/-- Modelled from the spec: the slug format
`^[a-z0-9]+(-[a-z0-9]+)*$` — hyphen-separated nonempty chunks of
lowercase letters and digits. -/
def isSlug (s : String) : Bool :=
  (strSplitChar '-' s).all fun part =>
    part != "" && part.toList.all fun c => c.isLower || c.isDigit

/-- Nonempty string of decimal digits. -/
def isDigitStr (s : String) : Bool :=
  s != "" && s.toList.all Char.isDigit

/-- Numeric value of a string of decimal digits. -/
def digitsToNat (s : String) : Nat :=
  s.toList.foldl (fun n c => n * 10 + (c.toNat - 48)) 0

/-- Modelled from the spec: a parsed semantic version
`MAJOR.MINOR.PATCH` with optional pre-release suffix. -/
structure SemVer where
  major : Nat
  minor : Nat
  patch : Nat
  pre : Option String := none
deriving DecidableEq, Repr

/-- Modelled from the spec: parse `MAJOR.MINOR.PATCH` with an optional
pre-release suffix introduced by the first hyphen. -/
def parseSemVer (s : String) : Option SemVer :=
  match strSplitChar '-' s with
  | [] => none
  | core :: rest =>
    match strSplitChar '.' core with
    | [ma, mi, pa] =>
      if isDigitStr ma && isDigitStr mi && isDigitStr pa then
        if rest = [] then
          some ⟨digitsToNat ma, digitsToNat mi, digitsToNat pa, none⟩
        else if rest.all (fun r => r != "") then
          some ⟨digitsToNat ma, digitsToNat mi, digitsToNat pa,
            some (String.intercalate "-" rest)⟩
        else none
      else none
    | _ => none

/-- Version string is a well-formed semantic version. -/
def isSemVer (s : String) : Bool :=
  (parseSemVer s).isSome

/-- Modelled from the spec: a syntactically valid standard MIME type,
`type/subtype` with both halves nonempty. -/
def isStdMime (s : String) : Bool :=
  match strSplitChar '/' s with
  | [t, sub] => t != "" && sub != ""
  | _ => false

/-- Modelled from the spec: the initial Media Type Registry content
(the four custom `application/vnd.pgip.*` types of the plugin contract). -/
def initialMediaTypes : List String :=
  ["application/vnd.pgip.vcf",
   "application/vnd.pgip.gfa",
   "application/vnd.pgip.graph-selection+json",
   "application/vnd.pgip.annotation+jsonl"]

/-- Modelled from the spec: a media type is acceptable when it is registered
in the Media Type Registry or is a syntactically valid standard MIME type. -/
def mediaTypeOk (mtr : List String) (t : String) : Bool :=
  mtr.contains t || isStdMime t

/-- Modelled from the spec: required-field presence errors
(name, version, entrypoint, at least one input, at least one output,
`provenance.container_image`). -/
def requiredFieldErrors (m : Manifest) : List (String × String) :=
  (if m.name = "" then [("name", "required field missing")] else []) ++
  (if m.version = "" then [("version", "required field missing")] else []) ++
  (if m.entrypoint = "" then [("entrypoint", "required field missing")] else []) ++
  (if m.inputs = [] then [("inputs", "at least one input required")] else []) ++
  (if m.outputs = [] then [("outputs", "at least one output required")] else []) ++
  (if m.provenance.container_image = ""
    then [("provenance.container_image", "required field missing")] else [])

/-- Modelled from the spec: slug-format errors for `name`. -/
def slugErrors (m : Manifest) : List (String × String) :=
  if isSlug m.name then [] else
    [("name", "must be a lowercase hyphen-separated slug")]

/-- Modelled from the spec: semantic-version-format errors for `version`. -/
def semverErrors (m : Manifest) : List (String × String) :=
  if isSemVer m.version then [] else
    [("version", "must be MAJOR.MINOR.PATCH with optional pre-release")]

/-- Modelled from the spec: media-type errors over every port. -/
def mediaTypeErrors (mtr : List String) (m : Manifest) : List (String × String) :=
  ((m.inputs.filter fun p => !mediaTypeOk mtr p.media_type).map fun p =>
    ("inputs." ++ p.name ++ ".media_type", "unknown or malformed media type")) ++
  ((m.outputs.filter fun p => !mediaTypeOk mtr p.media_type).map fun p =>
    ("outputs." ++ p.name ++ ".media_type", "unknown or malformed media type"))

/-- Modelled from the spec: duplicate port names within a direction. -/
def portNameErrors (m : Manifest) : List (String × String) :=
  (if (m.inputs.map IOPort.name).Nodup then [] else
    [("inputs", "duplicate port name within direction")]) ++
  (if (m.outputs.map IOPort.name).Nodup then [] else
    [("outputs", "duplicate port name within direction")])

/-- Modelled from the spec: a parameter default, if present, is convertible
to the declared type without loss. -/
def defaultOk (p : Parameter) : Bool :=
  match p.default with
  | none => true
  | some v => typeAccepts p.type v

/-- Modelled from the spec: parameter type/default consistency errors. -/
def parameterErrors (m : Manifest) : List (String × String) :=
  (m.parameters.filter fun p => !defaultOk p).map fun p =>
    ("parameters." ++ p.name ++ ".default", "default does not match declared type")

/-- Modelled from the spec: validation result, either `Valid` or `Invalid`
with a list of (field-path, reason) entries. -/
inductive ValidationResult where
  | Valid
  | Invalid (errors : List (String × String))
deriving DecidableEq, Repr

/-- Modelled from the spec: `validate(manifest)` runs the six check
categories in order, short-circuiting on the first failing category while
accumulating all errors within a category.  It reads only the Media Type
Registry `mtr` and never mutates its input. -/
def validate (mtr : List String) (m : Manifest) : ValidationResult :=
  if requiredFieldErrors m ≠ [] then .Invalid (requiredFieldErrors m) else
  if slugErrors m ≠ [] then .Invalid (slugErrors m) else
  if semverErrors m ≠ [] then .Invalid (semverErrors m) else
  if mediaTypeErrors mtr m ≠ [] then .Invalid (mediaTypeErrors mtr m) else
  if portNameErrors m ≠ [] then .Invalid (portNameErrors m) else
  if parameterErrors m ≠ [] then .Invalid (parameterErrors m) else
  .Valid

/-! Ordering of semantic versions.  Versions are compared through a key in
a lexicographic product: parsed versions beat unparseable strings, then
major/minor/patch numerically, then a release beats a pre-release, and two
pre-releases compare by their suffix string. -/

/-- Modelled from the spec: rank of a pre-release marker — a plain release
sorts above any pre-release of the same triple. -/
def preRank : Option String → Nat
  | none => 1
  | some _ => 0

/-- Lexicographic comparison key of a parsed semantic version. -/
def semverKey (v : SemVer) : Lex (Nat × Lex (Nat × Lex (Nat × Lex (Nat × String)))) :=
  toLex (v.major, toLex (v.minor, toLex (v.patch, toLex (preRank v.pre, v.pre.getD ""))))

/-- Total comparison key over version strings: parsed semantic versions sort
above strings that do not parse. -/
def versionKey (s : String) :
    Lex (Nat × Lex (Nat × Lex (Nat × Lex (Nat × Lex (Nat × String))))) :=
  match parseSemVer s with
  | some v => toLex (1, semverKey v)
  | none => toLex (0, semverKey ⟨0, 0, 0, none⟩)

/-- Modelled from the spec: publish result of the Plugin Registry Store. -/
inductive PublishResult where
  | ok
  | Conflict
  | ValidationFailed (errors : List (String × String))
deriving DecidableEq, Repr

/-- Modelled from the spec: freezing `provenance.container_digest` at
publication time — a mutable image reference is resolved to a content
digest exactly once, through the external resolver `resolve`. -/
def freezeDigest (resolve : String → String) (m : Manifest) : Manifest :=
  let d : String :=
    match m.provenance.container_digest with
    | some d => d
    | none => resolve m.provenance.container_image
  { m with provenance := { m.provenance with container_digest := some d } }

/-- Modelled from the spec: `publish(manifest)` — the Validator runs first
and any violation yields `ValidationFailed` with the error list; a duplicate
`(name, version)` key yields `Conflict` with the store untouched; otherwise
the manifest is stored (appended) with its digest frozen. -/
def publish (mtr : List String) (resolve : String → String)
    (reg : List Manifest) (m : Manifest) : PublishResult × List Manifest :=
  match validate mtr m with
  | .Invalid errs => (.ValidationFailed errs, reg)
  | .Valid =>
    if reg.any (fun e => e.name == m.name && e.version == m.version) then
      (.Conflict, reg)
    else
      (.ok, reg ++ [freezeDigest resolve m])

/-- Pick the manifest with the greatest version key from a list. -/
def pickLatest (l : List Manifest) : Option Manifest :=
  l.foldl (fun acc m =>
    match acc with
    | none => some m
    | some b => if versionKey b.version < versionKey m.version then some m else some b)
    none

/-- Modelled from the spec: `get(name, version?)` — with a version, the
matching manifest or `NotFound` (`none`); with the version omitted, the
highest published semantic version for that name. -/
def get (reg : List Manifest) (name : String) : Option String → Option Manifest
  | some v => reg.find? fun m => m.name == name && m.version == v
  | none => pickLatest (reg.filter fun m => m.name == name)

/-- Manifest summary as served by the registry list surface. -/
structure PluginSummary where
  name : String
  version : String
  description : String
  tags : List String
deriving DecidableEq, Repr

/-- Summary projection of a manifest. -/
def toSummary (m : Manifest) : PluginSummary :=
  ⟨m.name, m.version, m.summary, m.tags⟩

/-- Modelled from the spec: an optional tag / author / free-text filter for
the registry list surface. -/
structure ListFilter where
  tag : Option String := none
  author : Option String := none
  text : Option String := none

/-- Lowercase a string character by character. -/
def lowerStr (s : String) : String :=
  String.mk (s.toList.map Char.toLower)

/-- The first list is an initial segment of the second. -/
def startsWithList : List Char → List Char → Bool
  | [], _ => true
  | _ :: _, [] => false
  | a :: asTail, b :: bs => a = b && startsWithList asTail bs

/-- The first list occurs contiguously inside the second. -/
def containsList (needle : List Char) : List Char → Bool
  | [] => startsWithList needle []
  | c :: t => startsWithList needle (c :: t) || containsList needle t

/-- Case-insensitive substring test, as the dashboard search performs over
`name` and description text. -/
def textMatches (hay needle : String) : Bool :=
  containsList (lowerStr needle).toList (lowerStr hay).toList

/-- Modelled from the spec: a manifest matches a list filter when the tag
filter (if any) is one of its tags, the author filter (if any) is one of its
authors, and the text filter (if any) occurs in its name or summary. -/
def matchesFilter (f : ListFilter) (m : Manifest) : Bool :=
  (match f.tag with
   | none => true
   | some t => m.tags.contains t) &&
  (match f.author with
   | none => true
   | some a => m.authors.contains a) &&
  (match f.text with
   | none => true
   | some t => textMatches (m.name ++ " " ++ m.summary) t)

/-- Insert into a list sorted by `le`. -/
def insertBy (le : α → α → Bool) (a : α) : List α → List α
  | [] => [a]
  | b :: bs => if le a b then a :: b :: bs else b :: insertBy le a bs

/-- Insertion sort by `le`. -/
def sortBy (le : α → α → Bool) (l : List α) : List α :=
  l.foldr (insertBy le) []

/-- Ordering of summaries: by `name`, then by descending `version`. -/
def summaryLe (a b : PluginSummary) : Bool :=
  decide (a.name < b.name) ||
    (a.name == b.name && decide (versionKey b.version ≤ versionKey a.version))

/-- Modelled from the spec: `list(filter)` — the summaries of exactly the
published manifests matching the filter, ordered by `name` then descending
`version`. -/
def listPlugins (reg : List Manifest) (f : ListFilter) : List PluginSummary :=
  sortBy summaryLe ((reg.filter (matchesFilter f)).map toSummary)

/-- Tag occurrences over a published manifest set. -/
def allTags (reg : List Manifest) : List String :=
  (reg.map Manifest.tags).flatten

/-- Author occurrences over a published manifest set. -/
def allAuthors (reg : List Manifest) : List String :=
  (reg.map Manifest.authors).flatten

/-- A tag together with its usage count. -/
structure PluginTagSummary where
  tag : String
  usage_count : Nat
deriving DecidableEq, Repr

/-- Aggregate stats record of the registry (shape of `PluginStats` in
`src/frontend/src/api/client.ts`). -/
structure PluginStats where
  total_plugins : Nat
  unique_authors : Nat
  unique_tags : Nat
  most_recent_update : Option String
  top_tags : List PluginTagSummary
deriving DecidableEq, Repr

/-- Most recent of a list of timestamp strings. -/
def latestTimestamp (l : List String) : Option String :=
  l.foldl (fun acc t =>
    match acc with
    | none => some t
    | some b => if b < t then some t else some b) none

/-- Modelled from the spec: `stats()` — a derived read recomputed on demand
from exactly the currently published manifest set: total count, distinct
author count, distinct tag count, most recent update timestamp, and the
top-5 tags by usage frequency. -/
def stats (reg : List Manifest) : PluginStats :=
  { total_plugins := reg.length
    unique_authors := (allAuthors reg).toFinset.card
    unique_tags := (allTags reg).toFinset.card
    most_recent_update := latestTimestamp (reg.map Manifest.updated_at)
    top_tags :=
      (sortBy (fun a b => b.usage_count ≤ a.usage_count)
        ((allTags reg).dedup.map fun t => ⟨t, (allTags reg).count t⟩)).take 5 }

/-! Execution Orchestrator precondition gate. -/

/-- Modelled from the spec: outcome of an execution request — either the
precondition gate fails (carrying the missing required inputs and the
unknown/mistyped parameter names) or the container run is launched. -/
inductive ExecStatus where
  | preconditionFailed (missingInputs : List String) (invalidParams : List String)
  | launched
deriving DecidableEq, Repr

/-- Modelled from the spec: result of `execute`, with an explicit flag
recording whether a container was ever started. -/
structure ExecResult where
  status : ExecStatus
  containerStarted : Bool
deriving DecidableEq, Repr

/-- Modelled from the spec: the required (non-optional) input ports of the
manifest with no matching entry in `inputArtifacts`. -/
def missingRequiredInputs (m : Manifest) (inputArtifacts : List (String × String)) :
    List String :=
  (m.inputs.filter fun p =>
    !p.optional && (inputArtifacts.lookup p.name).isNone).map IOPort.name

/-- Modelled from the spec: the entries of `parameterValues` that name an
undeclared parameter or carry a value not convertible to the declared type. -/
def invalidParamEntries (m : Manifest) (parameterValues : List (String × ParamValue)) :
    List String :=
  (parameterValues.filter fun e =>
    match m.parameters.find? (fun p => p.name == e.1) with
    | none => true
    | some p => !typeAccepts p.type e.2).map Prod.fst

/-- Modelled from the spec: `execute` fails fast with `PreconditionFailed`,
carrying the complete set of missing or invalid items, before any container
is started; only a request passing the gate launches a container. -/
def execute (m : Manifest) (inputArtifacts : List (String × String))
    (parameterValues : List (String × ParamValue)) : ExecResult :=
  let missing := missingRequiredInputs m inputArtifacts
  let invalid := invalidParamEntries m parameterValues
  if missing = [] ∧ invalid = [] then
    { status := .launched, containerStarted := true }
  else
    { status := .preconditionFailed missing invalid, containerStarted := false }

/-! Structural JSON documents, used both by the manifest round-trip and as
the value type of loosely typed record fields. -/

/-- A structural JSON value.  Numbers are integers here; none of the
serialized manifest fields is numeric. -/
inductive Json where
  | null
  | jbool (b : Bool)
  | jnum (n : Int)
  | jstr (s : String)
  | jarr (xs : List Json)
  | jobj (fields : List (String × Json))

/-! Embedding of `src/frontend/src/api/client.ts`. -/

/-- Shape of a VCF ingest record (`VcfIngestRecord` in `client.ts`). -/
structure VcfIngestRecord where
  id : Nat
  source : String
  records : Nat
  samples : List String
  gfa_stats : Option (Option (List (String × Json))) := none
  created_at : String
  ingested_at : String

/-- An HTTP GET request as issued by the axios client: a path and its query
parameters. -/
structure GetRequest where
  path : String
  params : List (String × Nat)
deriving DecidableEq, Repr

/-- Request issued by `fetchVcfIngests` in `client.ts`: GET
`/api/v1/assets/vcf` with the caller-supplied `limit` query parameter,
defaulting to 5. -/
def fetchVcfIngestsRequest (limit : Nat := 5) : GetRequest :=
  { path := "/api/v1/assets/vcf", params := [("limit", limit)] }

/-- `fetchVcfIngests` from `client.ts`, with the transport abstracted as a
function from requests to response data: it issues the GET request and
returns the resulting list of ingest records unchanged. -/
def fetchVcfIngests (http : GetRequest → List VcfIngestRecord)
    (limit : Nat := 5) : List VcfIngestRecord :=
  http (fetchVcfIngestsRequest limit)

/-! Embedding of the `PluginManifest` document shape of `client.ts` and of
`buildSampleManifest` from `src/frontend/src/pages/RegisterPluginPage.tsx`,
together with a structural serializer/parser pair for the document form.
An outer `Option` layer on a field distinguishes an absent key (`none`)
from an explicit JSON `null` (`some none`). -/

/-- An input port entry of the `PluginManifest` interface (`optional?` may
be absent). -/
structure PluginPortIn where
  name : String
  description : String
  media_type : String
  optional : Option Bool := none
deriving DecidableEq, Repr

/-- An output port entry of the `PluginManifest` interface. -/
structure PluginPortOut where
  name : String
  description : String
  media_type : String
deriving DecidableEq, Repr

/-- The provenance block of the `PluginManifest` interface; the three
trailing fields may each be absent, `null`, or a string. -/
structure PluginProvenance where
  container_image : String
  container_digest : Option (Option String) := none
  repository_url : Option (Option String) := none
  reference : Option (Option String) := none
deriving DecidableEq, Repr

/-- The `PluginManifest` interface of `client.ts`. -/
structure PluginManifest where
  name : String
  version : String
  description : String
  authors : List String
  entrypoint : String
  created_at : String
  updated_at : String
  inputs : List PluginPortIn
  outputs : List PluginPortOut
  tags : List String
  provenance : PluginProvenance
  resources : Option (Option (List (String × String))) := none
deriving DecidableEq, Repr

/-- Serialize an optional-string field: absent, `null`, or a string. -/
def optStrField (k : String) : Option (Option String) → List (String × Json)
  | none => []
  | some none => [(k, .null)]
  | some (some s) => [(k, .jstr s)]

/-- Serialize an optional boolean field: absent or a boolean. -/
def optBoolField (k : String) : Option Bool → List (String × Json)
  | none => []
  | some b => [(k, .jbool b)]

/-- Serialize a list of strings. -/
def strArr (xs : List String) : Json :=
  .jarr (xs.map .jstr)

/-- Document form of an input port. -/
def inPortToJson (p : PluginPortIn) : Json :=
  .jobj ([("name", .jstr p.name), ("description", .jstr p.description),
    ("media_type", .jstr p.media_type)] ++ optBoolField "optional" p.optional)

/-- Document form of an output port. -/
def outPortToJson (p : PluginPortOut) : Json :=
  .jobj [("name", .jstr p.name), ("description", .jstr p.description),
    ("media_type", .jstr p.media_type)]

/-- Document form of the provenance block. -/
def provToJson (p : PluginProvenance) : Json :=
  .jobj ([("container_image", .jstr p.container_image)] ++
    optStrField "container_digest" p.container_digest ++
    optStrField "repository_url" p.repository_url ++
    optStrField "reference" p.reference)

/-- Document form of the optional resources record. -/
def resourcesToJson : Option (Option (List (String × String))) → List (String × Json)
  | none => []
  | some none => [("resources", .null)]
  | some (some kvs) => [("resources", .jobj (kvs.map fun kv => (kv.1, .jstr kv.2)))]

/-- Serialize a manifest to its document form, field for field, in the key
order of `buildSampleManifest`. -/
def manifestToJson (m : PluginManifest) : Json :=
  .jobj ([("name", .jstr m.name), ("version", .jstr m.version),
    ("description", .jstr m.description), ("authors", strArr m.authors),
    ("entrypoint", .jstr m.entrypoint), ("created_at", .jstr m.created_at),
    ("updated_at", .jstr m.updated_at),
    ("inputs", .jarr (m.inputs.map inPortToJson)),
    ("outputs", .jarr (m.outputs.map outPortToJson)),
    ("tags", strArr m.tags), ("provenance", provToJson m.provenance)] ++
    resourcesToJson m.resources)

/-- Decode a JSON string. -/
def asStr : Json → Option String
  | .jstr s => some s
  | _ => none

/-- Decode a JSON array of strings. -/
def asStrList : Json → Option (List String)
  | .jarr xs => xs.mapM asStr
  | _ => none

/-- Decode an optional-string field of an object: an absent key is `none`,
`null` is `some none`, and a string is `some (some s)`. -/
def readOptStr (fields : List (String × Json)) (k : String) : Option (Option (Option String)) :=
  match fields.lookup k with
  | none => some none
  | some .null => some (some none)
  | some (.jstr s) => some (some (some s))
  | some _ => none

/-- Decode an optional boolean field of an object. -/
def readOptBool (fields : List (String × Json)) (k : String) : Option (Option Bool) :=
  match fields.lookup k with
  | none => some none
  | some (.jbool b) => some (some b)
  | some _ => none

/-- Parse an input port from its document form. -/
def inPortOfJson : Json → Option PluginPortIn
  | .jobj fs => do
    let n ← (fs.lookup "name").bind asStr
    let d ← (fs.lookup "description").bind asStr
    let mt ← (fs.lookup "media_type").bind asStr
    let o ← readOptBool fs "optional"
    pure ⟨n, d, mt, o⟩
  | _ => none

/-- Parse an output port from its document form. -/
def outPortOfJson : Json → Option PluginPortOut
  | .jobj fs => do
    let n ← (fs.lookup "name").bind asStr
    let d ← (fs.lookup "description").bind asStr
    let mt ← (fs.lookup "media_type").bind asStr
    pure ⟨n, d, mt⟩
  | _ => none

/-- Parse the provenance block from its document form. -/
def provOfJson : Json → Option PluginProvenance
  | .jobj fs => do
    let img ← (fs.lookup "container_image").bind asStr
    let dg ← readOptStr fs "container_digest"
    let ru ← readOptStr fs "repository_url"
    let rf ← readOptStr fs "reference"
    pure ⟨img, dg, ru, rf⟩
  | _ => none

/-- Parse a string-valued record. -/
def kvOfJson (kv : String × Json) : Option (String × String) :=
  match kv.2 with
  | .jstr s => some (kv.1, s)
  | _ => none

/-- Parse the optional resources field. -/
def readResources (fields : List (String × Json)) :
    Option (Option (Option (List (String × String)))) :=
  match fields.lookup "resources" with
  | none => some none
  | some .null => some (some none)
  | some (.jobj kvs) => (kvs.mapM kvOfJson).map fun r => some (some r)
  | some _ => none

/-- Parse a manifest back from its document form. -/
def manifestOfJson : Json → Option PluginManifest
  | .jobj fs => do
    let n ← (fs.lookup "name").bind asStr
    let v ← (fs.lookup "version").bind asStr
    let d ← (fs.lookup "description").bind asStr
    let au ← (fs.lookup "authors").bind asStrList
    let e ← (fs.lookup "entrypoint").bind asStr
    let ca ← (fs.lookup "created_at").bind asStr
    let ua ← (fs.lookup "updated_at").bind asStr
    let ins ← match fs.lookup "inputs" with
      | some (.jarr xs) => xs.mapM inPortOfJson
      | _ => none
    let outs ← match fs.lookup "outputs" with
      | some (.jarr xs) => xs.mapM outPortOfJson
      | _ => none
    let tg ← (fs.lookup "tags").bind asStrList
    let pv ← (fs.lookup "provenance").bind provOfJson
    let rs ← readResources fs
    pure ⟨n, v, d, au, e, ca, ua, ins, outs, tg, pv, rs⟩
  | _ => none

/-- The sample manifest of `buildSampleManifest` in `RegisterPluginPage.tsx`;
the two timestamps are `new Date().toISOString()` there and are passed in as
`now`. -/
def buildSampleManifest (now : String) : PluginManifest :=
  { name := "transcriptomic-overlay"
    version := "1.0.0"
    description := "Overlays gene expression matrices onto variant cohorts."
    authors := ["PGIP Core Team"]
    entrypoint := "python -m pgip_plugins.transcriptomic_overlay --input /data/variants.vcf"
    created_at := now
    updated_at := now
    inputs :=
      [{ name := "variants", description := "VCF dataset to annotate",
         media_type := "application/vnd.pgip.vcf" },
       { name := "expression", description := "Gene expression matrix",
         media_type := "application/json", optional := some true }]
    outputs :=
      [{ name := "annotations",
         description := "Enriched annotations with expression evidence",
         media_type := "application/vnd.pgip.annotation+jsonl" }]
    tags := ["expression", "transcriptome"]
    provenance :=
      { container_image := "ghcr.io/pgip/transcriptomic-overlay:1.0.0"
        repository_url := some (some "https://github.com/pgip-dev/transcriptomic-overlay") }
    resources := some (some [("cpu", "4"), ("memory", "8Gi")]) }

/-! Embedding of the two analysis processes of
`src/workflows/nextflow/ingest_pangenome.nf`.  Their inline Python iterates
over the lines of the input file; lines are modelled without their trailing
newline, which none of the operations below can observe (`startswith` of a
non-newline prefix, `strip`, `rstrip`). -/

/-- Whitespace in the sense of Python `str.strip` (ASCII range). -/
def pyIsSpace (c : Char) : Bool :=
  c = ' ' || c = '\t' || c = '\n' || c = '\r' || c.toNat = 11 || c.toNat = 12

/-- Python `str.rstrip()`. -/
def pyRStrip (s : String) : String :=
  String.mk (s.toList.reverse.dropWhile pyIsSpace).reverse

/-- Python `str.strip()`. -/
def pyStrip (s : String) : String :=
  String.mk ((s.toList.dropWhile pyIsSpace).reverse.dropWhile pyIsSpace).reverse

/-- Python `str.startswith` over an explicit character-list pattern. -/
def pyStartsWith (s : String) (pat : List Char) : Bool :=
  startsWithList pat s.toList

/-- The sample columns extracted from a `#CHROM` header line:
`line.rstrip().split("\t")[9:]`. -/
def headerSamples (line : String) : List String :=
  (strSplitChar '\t' (pyRStrip line)).drop 9

/-- One line of the `PREPARE_VCF` summary loop: `##` lines are skipped,
a `#CHROM` line replaces the sample list, and any other non-blank line
counts as a record. -/
def prepareVcfStep (acc : Nat × List String) (line : String) : Nat × List String :=
  if pyStartsWith line ['#', '#'] then acc
  else if pyStartsWith line ['#', 'C', 'H', 'R', 'O', 'M'] then
    (acc.1, headerSamples line)
  else if pyStrip line = "" then acc
  else (acc.1 + 1, acc.2)

/-- The `records` and `samples` fields of the `PREPARE_VCF` summary,
computed from the lines of the input VCF exactly as the process script
does. -/
def prepareVcfSummary (lines : List String) : Nat × List String :=
  lines.foldl prepareVcfStep (0, [])

/-- The three counters of the `SUMMARIZE_GFA` stats report. -/
structure GfaStats where
  segments : Nat
  links : Nat
  sequence_bases : Nat
deriving DecidableEq, Repr

/-- One line of the `SUMMARIZE_GFA` loop: the line is stripped, blank lines
are skipped, `S` records count as segments (adding the length of the third
tab-separated field when it exists and is neither `*` nor empty), and `L`
or `E` records count as links. -/
def summarizeGfaStep (acc : GfaStats) (raw : String) : GfaStats :=
  let line := pyStrip raw
  match line.toList with
  | [] => acc
  | c :: _ =>
    if c = 'S' then
      match (strSplitChar '\t' line).drop 2 with
      | p :: _ =>
        if p != "*" && p != "" then
          { acc with segments := acc.segments + 1,
                     sequence_bases := acc.sequence_bases + p.length }
        else { acc with segments := acc.segments + 1 }
      | [] => { acc with segments := acc.segments + 1 }
    else if c = 'L' ∨ c = 'E' then { acc with links := acc.links + 1 }
    else acc

/-- The `SUMMARIZE_GFA` stats, computed from the lines of the input GFA
exactly as the process script does. -/
def summarizeGfa (lines : List String) : GfaStats :=
  lines.foldl summarizeGfaStep ⟨0, 0, 0⟩

/-! Concrete sample data used to instantiate theorems with hypotheses. -/

/-- A well-formed sample manifest. -/
def mGood : Manifest :=
  { name := "demo-plugin", version := "1.0.0", summary := "demo",
    entrypoint := "run", created_at := "2024-01-01T00:00:00Z",
    updated_at := "2024-01-01T00:00:00Z", authors := ["alice"],
    tags := ["vcf"],
    inputs := [{ name := "variants", description := "d",
                 media_type := "application/vnd.pgip.vcf" }],
    outputs := [{ name := "out", description := "d",
                  media_type := "application/json" }],
    provenance := { container_image := "img:1" } }

/-- The sample manifest at a higher version. -/
def mGood2 : Manifest :=
  { mGood with version := "1.2.0" }

/-- A manifest satisfying every structural check except parameter
type/default consistency: its only parameter is a `float` with a string
default. -/
def mParamBad : Manifest :=
  { mGood with parameters :=
      [{ name := "threshold", type := .float, default := some (.pStr "x") }] }

/-- An invalid manifest (no inputs) sharing its `(name, version)` key with
`mGood`. -/
def mDupBad : Manifest :=
  { mGood with inputs := [] }

/-- A second valid manifest under a fresh name, carrying two tags unused by
`mGood`. -/
def mSecond : Manifest :=
  { mGood with name := "other-plugin", tags := ["expr", "rna"] }

/-- A digest resolver standing in for the container registry. -/
def resolve0 : String → String := fun _ => "sha256:0000"

/-- A registry holding only `mGood`. -/
def regOne : List Manifest := [mGood]

/-- A registry holding `mGood` at two versions. -/
def regTwo : List Manifest := [mGood, mGood2]

/-! Helper lemmas. -/

theorem if_singleton_eq_nil {α : Type} {c : Prop} [Decidable c] (x : α) :
    (if c then [x] else []) = ([] : List α) ↔ ¬ c := by
  split <;> simp [*]

theorem if_nil_singleton_eq_nil {α : Type} {c : Prop} [Decidable c] (x : α) :
    (if c then [] else [x]) = ([] : List α) ↔ c := by
  split <;> simp [*]

theorem requiredFieldErrors_eq_nil (m : Manifest) :
    requiredFieldErrors m = [] ↔
      (m.name ≠ "" ∧ m.version ≠ "" ∧ m.entrypoint ≠ "" ∧ m.inputs ≠ [] ∧
       m.outputs ≠ [] ∧ m.provenance.container_image ≠ "") := by
  simp [requiredFieldErrors, if_singleton_eq_nil]

theorem slugErrors_eq_nil (m : Manifest) :
    slugErrors m = [] ↔ isSlug m.name = true := by
  simp [slugErrors, if_nil_singleton_eq_nil]

theorem semverErrors_eq_nil (m : Manifest) :
    semverErrors m = [] ↔ isSemVer m.version = true := by
  simp [semverErrors, if_nil_singleton_eq_nil]

theorem mediaTypeErrors_eq_nil (mtr : List String) (m : Manifest) :
    mediaTypeErrors mtr m = [] ↔
      ((∀ p ∈ m.inputs, mediaTypeOk mtr p.media_type = true) ∧
       (∀ p ∈ m.outputs, mediaTypeOk mtr p.media_type = true)) := by
  simp [mediaTypeErrors]

theorem portNameErrors_eq_nil (m : Manifest) :
    portNameErrors m = [] ↔
      ((m.inputs.map IOPort.name).Nodup ∧ (m.outputs.map IOPort.name).Nodup) := by
  simp [portNameErrors, if_nil_singleton_eq_nil]

theorem defaultOk_iff (p : Parameter) :
    defaultOk p = true ↔ ∀ v, p.default = some v → typeAccepts p.type v = true := by
  cases h : p.default <;> simp [defaultOk, h]

theorem parameterErrors_eq_nil (m : Manifest) :
    parameterErrors m = [] ↔
      ∀ p ∈ m.parameters, ∀ v, p.default = some v → typeAccepts p.type v = true := by
  simp [parameterErrors, defaultOk_iff]

theorem validate_eq_valid_iff_errors (mtr : List String) (m : Manifest) :
    validate mtr m = .Valid ↔
      (requiredFieldErrors m = [] ∧ slugErrors m = [] ∧ semverErrors m = [] ∧
       mediaTypeErrors mtr m = [] ∧ portNameErrors m = [] ∧ parameterErrors m = []) := by
  unfold validate
  split_ifs <;> simp_all

/-! C1.  The spec's testable property states that `validate(m)` is `Valid`
exactly when the required fields are present, the `name`/`version` formats
hold, every media type is known or well-formed, and port names are unique
per direction.  The Validator contract additionally checks parameter
type/default consistency, so a manifest meeting all four stated conditions
with a mistyped parameter default is still `Invalid`: the claim's
biconditional needs the parameter clause added. -/

/-- C1 is false as stated: `mParamBad` satisfies required-field presence,
the name and version formats, media-type well-formedness and port-name
uniqueness, yet `validate` rejects it (its parameter default is a string
while the declared type is `float`). -/
theorem validate_param_default_counterexample :
    (mParamBad.name ≠ "" ∧ mParamBad.version ≠ "" ∧ mParamBad.entrypoint ≠ "" ∧
     mParamBad.inputs ≠ [] ∧ mParamBad.outputs ≠ [] ∧
     mParamBad.provenance.container_image ≠ "") ∧
    isSlug mParamBad.name = true ∧ isSemVer mParamBad.version = true ∧
    (∀ p ∈ mParamBad.inputs, mediaTypeOk initialMediaTypes p.media_type = true) ∧
    (∀ p ∈ mParamBad.outputs, mediaTypeOk initialMediaTypes p.media_type = true) ∧
    (mParamBad.inputs.map IOPort.name).Nodup ∧
    (mParamBad.outputs.map IOPort.name).Nodup ∧
    validate initialMediaTypes mParamBad ≠ .Valid := by
  decide

/-- C1 (amended): `validate(m)` is `Valid` iff every required field is
present, `name` and `version` match their formats, every port's media type
is known or well-formed, no two ports share a name within a direction, and
additionally every parameter default matches its declared type. -/
theorem validate_valid_iff (mtr : List String) (m : Manifest) :
    validate mtr m = .Valid ↔
      ((m.name ≠ "" ∧ m.version ≠ "" ∧ m.entrypoint ≠ "" ∧ m.inputs ≠ [] ∧
        m.outputs ≠ [] ∧ m.provenance.container_image ≠ "") ∧
       isSlug m.name = true ∧ isSemVer m.version = true ∧
       (∀ p ∈ m.inputs, mediaTypeOk mtr p.media_type = true) ∧
       (∀ p ∈ m.outputs, mediaTypeOk mtr p.media_type = true) ∧
       (m.inputs.map IOPort.name).Nodup ∧ (m.outputs.map IOPort.name).Nodup ∧
       (∀ p ∈ m.parameters, ∀ v, p.default = some v → typeAccepts p.type v = true)) := by
  rw [validate_eq_valid_iff_errors, requiredFieldErrors_eq_nil, slugErrors_eq_nil,
    semverErrors_eq_nil, mediaTypeErrors_eq_nil, portNameErrors_eq_nil,
    parameterErrors_eq_nil]
  tauto

/-- C1 witness: the amended biconditional evaluated on a concrete valid
manifest. -/
theorem validate_valid_iff_witness :
    validate initialMediaTypes mGood = .Valid :=
  (validate_valid_iff initialMediaTypes mGood).mpr (by decide)

/-! C2.  The execution precondition gate. -/

/-- Prop-level reading of the per-entry parameter check. -/
theorem undeclaredOrMistyped_iff (o : Option Parameter) (v : ParamValue) :
    (match o with
     | none => true
     | some p => !typeAccepts p.type v) = true ↔
      ¬ ∃ p, o = some p ∧ typeAccepts p.type v = true := by
  cases o <;> simp

/-- C2: whenever some required input is unmatched or some supplied parameter
is undeclared or mistyped, `execute` returns `PreconditionFailed` carrying
the complete set of missing and invalid items, with no container started;
the two carried lists enumerate exactly the offending items. -/
theorem execute_precondition_failed
    (m : Manifest) (arts : List (String × String))
    (pvals : List (String × ParamValue))
    (h : missingRequiredInputs m arts ≠ [] ∨ invalidParamEntries m pvals ≠ []) :
    execute m arts pvals =
      { status := .preconditionFailed (missingRequiredInputs m arts)
          (invalidParamEntries m pvals),
        containerStarted := false } ∧
    (∀ n, n ∈ missingRequiredInputs m arts ↔
      ∃ p ∈ m.inputs, p.name = n ∧ p.optional = false ∧ arts.lookup n = none) ∧
    (∀ n, n ∈ invalidParamEntries m pvals ↔
      ∃ v, (n, v) ∈ pvals ∧
        ¬ ∃ p, m.parameters.find? (fun q => q.name == n) = some p ∧
          typeAccepts p.type v = true) := by
  refine ⟨?_, ?_, ?_⟩
  · unfold execute
    rw [if_neg]
    tauto
  · intro n
    simp only [missingRequiredInputs, List.mem_map, List.mem_filter,
      Bool.and_eq_true, Bool.not_eq_true', Option.isNone_iff_eq_none]
    constructor
    · rintro ⟨p, ⟨hp, hopt, hlk⟩, rfl⟩
      exact ⟨p, hp, rfl, hopt, hlk⟩
    · rintro ⟨p, hp, rfl, hopt, hlk⟩
      exact ⟨p, ⟨hp, hopt, hlk⟩, rfl⟩
  · intro n
    simp only [invalidParamEntries, List.mem_map, List.mem_filter]
    constructor
    · rintro ⟨⟨a, v⟩, ⟨hmem, hq⟩, rfl⟩
      exact ⟨v, hmem, (undeclaredOrMistyped_iff _ v).mp hq⟩
    · rintro ⟨v, hmem, hbad⟩
      exact ⟨(n, v), ⟨hmem, (undeclaredOrMistyped_iff _ v).mpr hbad⟩, rfl⟩

/-- C2 witness: executing `mGood` with no input artifacts fails the gate,
reporting exactly its required input, and starts no container. -/
theorem execute_precondition_failed_witness :
    execute mGood [] [] =
      { status := .preconditionFailed ["variants"] [],
        containerStarted := false } :=
  (execute_precondition_failed mGood [] [] (Or.inl (by decide))).1.trans (by decide)

/-! C3.  Publishing a duplicate `(name, version)`.  The publish contract
runs the Validator first, so a second manifest that shares the key of a
published one but fails validation yields `ValidationFailed`, not
`Conflict`; the claim holds once the second manifest is required to pass
validation. -/

/-- C3 is false as stated: `mDupBad` shares `(name, version)` with the
published `mGood` but is itself invalid, so publishing it returns
`ValidationFailed` rather than `Conflict`. -/
theorem publish_duplicate_invalid_counterexample :
    (∃ e ∈ regOne, e.name = mDupBad.name ∧ e.version = mDupBad.version) ∧
    (publish initialMediaTypes resolve0 regOne mDupBad).1 ≠ .Conflict := by
  decide

/-- C3 (amended): publishing a manifest that passes validation and whose
`(name, version)` key is already present returns `Conflict` and leaves the
registry — in particular the already-stored manifest — unchanged. -/
theorem publish_conflict_of_duplicate
    (mtr : List String) (resolve : String → String) (reg : List Manifest)
    (m : Manifest) (hvalid : validate mtr m = .Valid)
    (hdup : ∃ e ∈ reg, e.name = m.name ∧ e.version = m.version) :
    publish mtr resolve reg m = (.Conflict, reg) := by
  obtain ⟨e, he, h1, h2⟩ := hdup
  have hany : reg.any (fun e => e.name == m.name && e.version == m.version) = true :=
    List.any_eq_true.mpr ⟨e, he, by simp [h1, h2]⟩
  simp [publish, hvalid, hany]

/-- C3 witness: republishing `mGood` over `regOne` conflicts and leaves the
store untouched. -/
theorem publish_conflict_of_duplicate_witness :
    publish initialMediaTypes resolve0 regOne mGood = (.Conflict, regOne) :=
  publish_conflict_of_duplicate initialMediaTypes resolve0 regOne mGood
    (by decide) ⟨mGood, by decide, rfl, rfl⟩

/-! C7.  The ingest-history fetch of the frontend client. -/

/-- C7: `fetchVcfIngests` issues a GET request to `/api/v1/assets/vcf`
carrying the caller-supplied `limit` as its query parameter and returns the
resulting record list; omitting the argument uses the default limit 5. -/
theorem fetchVcfIngests_request_spec
    (http : GetRequest → List VcfIngestRecord) (n : Nat) :
    fetchVcfIngests http n =
      http { path := "/api/v1/assets/vcf", params := [("limit", n)] } ∧
    fetchVcfIngests http =
      http { path := "/api/v1/assets/vcf", params := [("limit", 5)] } :=
  ⟨rfl, rfl⟩

/-! C9.  The `PREPARE_VCF` summary. -/

theorem startsWithList_hashhash_not_chrom (cs : List Char) :
    startsWithList ['#', '#'] cs = true →
    startsWithList ['#', 'C', 'H', 'R', 'O', 'M'] cs = false := by
  match cs with
  | [] => simp [startsWithList]
  | [c] => simp [startsWithList]
  | c1 :: c2 :: t =>
    intro h
    simp only [startsWithList, Bool.and_eq_true, decide_eq_true_eq] at h
    obtain ⟨h1, h2, -⟩ := h
    subst h1
    subst h2
    simp [startsWithList]

theorem prepareVcf_foldl (lines : List String) (acc : Nat × List String) :
    lines.foldl prepareVcfStep acc =
      (acc.1 + (lines.filter fun l =>
          !pyStartsWith l ['#', '#'] && !pyStartsWith l ['#', 'C', 'H', 'R', 'O', 'M'] &&
          !(pyStrip l == "")).length,
       match lines.reverse.find? (fun l => pyStartsWith l ['#', 'C', 'H', 'R', 'O', 'M']) with
       | none => acc.2
       | some h => headerSamples h) := by
  induction lines generalizing acc with
  | nil => simp
  | cons a l ih =>
    rw [List.foldl_cons, ih, List.reverse_cons, List.find?_append]
    by_cases h1 : pyStartsWith a ['#', '#'] = true
    · have h2 : pyStartsWith a ['#', 'C', 'H', 'R', 'O', 'M'] = false :=
        startsWithList_hashhash_not_chrom a.toList h1
      cases hf : l.reverse.find? (fun l => pyStartsWith l ['#', 'C', 'H', 'R', 'O', 'M']) <;>
        simp [prepareVcfStep, h1, h2, hf, Option.or]
    · by_cases h2 : pyStartsWith a ['#', 'C', 'H', 'R', 'O', 'M'] = true
      · cases hf : l.reverse.find? (fun l => pyStartsWith l ['#', 'C', 'H', 'R', 'O', 'M']) <;>
          simp [prepareVcfStep, h1, h2, hf, Option.or]
      · by_cases h3 : pyStrip a = ""
        · cases hf : l.reverse.find? (fun l => pyStartsWith l ['#', 'C', 'H', 'R', 'O', 'M']) <;>
            simp [prepareVcfStep, h1, h2, h3, hf, Option.or]
        · cases hf : l.reverse.find? (fun l => pyStartsWith l ['#', 'C', 'H', 'R', 'O', 'M']) <;>
            simp [prepareVcfStep, h1, h2, h3, hf, Option.or] <;> omega

/-- C9: the `records` field of the `PREPARE_VCF` summary counts exactly the
non-blank lines that start neither with `##` nor with `#CHROM` (so a
non-blank line starting with a single `#` other than `#CHROM` is counted),
and the `samples` field is the tab-separated columns after the ninth column
of the (last) `#CHROM` header line, the empty list when no such line
exists. -/
theorem prepare_vcf_summary_spec (lines : List String) :
    (prepareVcfSummary lines).1 =
      (lines.filter fun l =>
        !pyStartsWith l ['#', '#'] && !pyStartsWith l ['#', 'C', 'H', 'R', 'O', 'M'] &&
        !(pyStrip l == "")).length ∧
    (prepareVcfSummary lines).2 =
      ((lines.reverse.find? fun l =>
        pyStartsWith l ['#', 'C', 'H', 'R', 'O', 'M']).map headerSamples).getD [] := by
  unfold prepareVcfSummary
  rw [prepareVcf_foldl]
  cases hf : lines.reverse.find? (fun l => pyStartsWith l ['#', 'C', 'H', 'R', 'O', 'M']) <;>
    simp [hf]

/-! C10.  The `SUMMARIZE_GFA` stats. -/

theorem summarizeGfa_foldl (lines : List String) (acc : GfaStats) :
    lines.foldl summarizeGfaStep acc =
      { segments := acc.segments + (lines.filter fun r =>
          decide ((pyStrip r).toList.head? = some 'S')).length,
        links := acc.links + (lines.filter fun r =>
          decide ((pyStrip r).toList.head? = some 'L' ∨
            (pyStrip r).toList.head? = some 'E')).length,
        sequence_bases := acc.sequence_bases + (lines.map fun r =>
          if (pyStrip r).toList.head? = some 'S' then
            match (strSplitChar '\t' (pyStrip r)).drop 2 with
            | p :: _ => if p != "*" && p != "" then p.length else 0
            | [] => 0
          else 0).sum } := by
  induction lines generalizing acc with
  | nil => simp
  | cons a l ih =>
    rw [List.foldl_cons, ih]
    rcases hl : (pyStrip a).toList with _ | ⟨c, t⟩
    · have hld : (pyStrip a).data = [] := hl
      simp [summarizeGfaStep, hl, hld]
    · have hld : (pyStrip a).data = c :: t := hl
      by_cases hc : c = 'S'
      · subst hc
        cases hp : (strSplitChar '\t' (pyStrip a)).drop 2 with
        | nil =>
          simp [summarizeGfaStep, hl, hld, hp, GfaStats.mk.injEq]
          omega
        | cons p rest =>
          by_cases hpv : p = "*"
          · simp [summarizeGfaStep, hl, hld, hp, hpv, GfaStats.mk.injEq]
            omega
          · by_cases hpe : p = ""
            · simp [summarizeGfaStep, hl, hld, hp, hpv, hpe, GfaStats.mk.injEq]
              omega
            · simp [summarizeGfaStep, hl, hld, hp, hpv, hpe, GfaStats.mk.injEq]
              omega
      · by_cases hle : c = 'L' ∨ c = 'E'
        · simp [summarizeGfaStep, hl, hld, hc, hle, GfaStats.mk.injEq]
          omega
        · have hL : ¬ c = 'L' := fun h => hle (Or.inl h)
          have hE : ¬ c = 'E' := fun h => hle (Or.inr h)
          simp [summarizeGfaStep, hl, hld, hc, hle, hL, hE]

/-- C10: the `SUMMARIZE_GFA` stats count as `segments` the non-blank
(stripped) lines whose first character is `S`, as `links` those whose first
character is `L` or `E`, and as `sequence_bases` the summed length of the
third tab-separated field of the `S` lines, counted only when that field
exists and is neither `*` nor empty. -/
theorem summarize_gfa_spec (lines : List String) :
    (summarizeGfa lines).segments =
      (lines.filter fun r => decide ((pyStrip r).toList.head? = some 'S')).length ∧
    (summarizeGfa lines).links =
      (lines.filter fun r =>
        decide ((pyStrip r).toList.head? = some 'L' ∨
          (pyStrip r).toList.head? = some 'E')).length ∧
    (summarizeGfa lines).sequence_bases =
      (lines.map fun r =>
        if (pyStrip r).toList.head? = some 'S' then
          match (strSplitChar '\t' (pyStrip r)).drop 2 with
          | p :: _ => if p != "*" && p != "" then p.length else 0
          | [] => 0
        else 0).sum := by
  unfold summarizeGfa
  rw [summarizeGfa_foldl]
  simp

/-! C4.  Version resolution of `get`. -/

theorem pickLatest_go (l : List Manifest) (b : Manifest) :
    ∃ m, l.foldl (fun acc m =>
        match acc with
        | none => some m
        | some b => if versionKey b.version < versionKey m.version then some m else some b)
      (some b) = some m ∧ (m = b ∨ m ∈ l) ∧
      versionKey b.version ≤ versionKey m.version ∧
      ∀ x ∈ l, versionKey x.version ≤ versionKey m.version := by
  induction l generalizing b with
  | nil => exact ⟨b, rfl, Or.inl rfl, le_refl _, by simp⟩
  | cons a t ih =>
    by_cases hab : versionKey b.version < versionKey a.version
    · obtain ⟨m, hm, hmem, hle, hall⟩ := ih a
      refine ⟨m, ?_, ?_, ?_, ?_⟩
      · rw [List.foldl_cons]
        show t.foldl _
          (if versionKey b.version < versionKey a.version then some a else some b) = some m
        rw [if_pos hab]
        exact hm
      · rcases hmem with rfl | h2
        · exact Or.inr (List.mem_cons_self _ _)
        · exact Or.inr (List.mem_cons_of_mem _ h2)
      · exact le_trans (le_of_lt hab) hle
      · intro x hx
        rcases List.mem_cons.mp hx with rfl | hx2
        · exact hle
        · exact hall x hx2
    · obtain ⟨m, hm, hmem, hle, hall⟩ := ih b
      refine ⟨m, ?_, ?_, ?_, ?_⟩
      · rw [List.foldl_cons]
        show t.foldl _
          (if versionKey b.version < versionKey a.version then some a else some b) = some m
        rw [if_neg hab]
        exact hm
      · rcases hmem with rfl | h2
        · exact Or.inl rfl
        · exact Or.inr (List.mem_cons_of_mem _ h2)
      · exact hle
      · intro x hx
        rcases List.mem_cons.mp hx with rfl | hx2
        · exact le_trans (le_of_not_lt hab) hle
        · exact hall x hx2

theorem pickLatest_spec (l : List Manifest) (hl : l ≠ []) :
    ∃ m, pickLatest l = some m ∧ m ∈ l ∧
      ∀ x ∈ l, versionKey x.version ≤ versionKey m.version := by
  match l, hl with
  | a :: t, _ =>
    obtain ⟨m, hm, hmem, hle, hall⟩ := pickLatest_go t a
    refine ⟨m, hm, ?_, ?_⟩
    · rcases hmem with rfl | h2
      · exact List.mem_cons_self _ _
      · exact List.mem_cons_of_mem _ h2
    · intro x hx
      rcases List.mem_cons.mp hx with rfl | hx2
      · exact hle
      · exact hall x hx2

/-- C4: `get` with a version returns only a stored manifest matching that
name and version (or `NotFound` as `none`); for any name owning at least
one published manifest, `get` with the version omitted returns a stored
manifest of that name whose semantic version is highest among all published
versions of the name. -/
theorem get_resolves_highest_version (reg : List Manifest) (name : String) :
    (∀ v mr, get reg name (some v) = some mr →
      mr ∈ reg ∧ mr.name = name ∧ mr.version = v) ∧
    ((∃ m ∈ reg, m.name = name) →
      ∃ mr, get reg name none = some mr ∧ mr ∈ reg ∧ mr.name = name ∧
        ∀ x ∈ reg, x.name = name → versionKey x.version ≤ versionKey mr.version) := by
  constructor
  · intro v mr h
    have hmem := List.mem_of_find?_eq_some h
    have hp := List.find?_some h
    simp only [Bool.and_eq_true, beq_iff_eq] at hp
    exact ⟨hmem, hp.1, hp.2⟩
  · rintro ⟨m, hm, hname⟩
    have hmf : m ∈ reg.filter (fun x => x.name == name) := by
      simp [List.mem_filter, hm, hname]
    have hne : reg.filter (fun x => x.name == name) ≠ [] := by
      intro h0
      rw [h0] at hmf
      exact absurd hmf (List.not_mem_nil m)
    obtain ⟨mr, hmr, hmem, hall⟩ := pickLatest_spec _ hne
    have hmem2 := List.mem_filter.mp hmem
    refine ⟨mr, hmr, hmem2.1, by simpa using hmem2.2, ?_⟩
    intro x hx hxn
    exact hall x (List.mem_filter.mpr ⟨hx, by simp [hxn]⟩)

/-- C4 witness: on a registry holding versions 1.0.0 and 1.2.0 of
`demo-plugin`, the versioned lookup pins its result and the unversioned
lookup returns a maximal version. -/
theorem get_resolves_highest_version_witness :
    (mGood ∈ regTwo ∧ mGood.name = "demo-plugin" ∧ mGood.version = "1.0.0") ∧
    (∃ mr, get regTwo "demo-plugin" none = some mr ∧ mr ∈ regTwo ∧
      mr.name = "demo-plugin" ∧
      ∀ x ∈ regTwo, x.name = "demo-plugin" →
        versionKey x.version ≤ versionKey mr.version) := by
  constructor
  · exact (get_resolves_highest_version regTwo "demo-plugin").1 "1.0.0" mGood (by decide)
  · exact (get_resolves_highest_version regTwo "demo-plugin").2
      ⟨mGood, List.mem_cons_self _ _, rfl⟩

/-! C5.  The list/search surface. -/

theorem mem_insertBy {α : Type} (le : α → α → Bool) (a x : α) (l : List α) :
    x ∈ insertBy le a l ↔ x = a ∨ x ∈ l := by
  induction l with
  | nil => simp [insertBy]
  | cons b t ih =>
    simp only [insertBy]
    split
    · simp [List.mem_cons]
    · simp only [List.mem_cons, ih]
      tauto

theorem mem_sortBy {α : Type} (le : α → α → Bool) (x : α) (l : List α) :
    x ∈ sortBy le l ↔ x ∈ l := by
  induction l with
  | nil => simp [sortBy]
  | cons b t ih =>
    simp only [sortBy, List.foldr_cons] at ih ⊢
    rw [mem_insertBy, ih, List.mem_cons]

theorem matchesFilter_iff (f : ListFilter) (m : Manifest) :
    matchesFilter f m = true ↔
      ((∀ t, f.tag = some t → m.tags.contains t = true) ∧
       (∀ a, f.author = some a → m.authors.contains a = true) ∧
       (∀ t, f.text = some t →
         textMatches (m.name ++ " " ++ m.summary) t = true)) := by
  rcases f with ⟨tg, au, tx⟩
  cases tg <;> cases au <;> cases tx <;> simp [matchesFilter, and_assoc]

/-- C5: the list surface returns exactly the summaries of the published
manifests matching the supplied filter — the tag filter must be one of the
manifest's tags, the author filter one of its authors, and the free-text
filter a case-insensitive substring of its name-plus-summary text. -/
theorem listPlugins_mem_iff (reg : List Manifest) (f : ListFilter) (s : PluginSummary) :
    s ∈ listPlugins reg f ↔
      ∃ m ∈ reg, s = toSummary m ∧
        (∀ t, f.tag = some t → m.tags.contains t = true) ∧
        (∀ a, f.author = some a → m.authors.contains a = true) ∧
        (∀ t, f.text = some t →
          textMatches (m.name ++ " " ++ m.summary) t = true) := by
  unfold listPlugins
  rw [mem_sortBy]
  simp only [List.mem_map, List.mem_filter]
  constructor
  · rintro ⟨m, ⟨hm, hmf⟩, rfl⟩
    exact ⟨m, hm, rfl, (matchesFilter_iff f m).mp hmf⟩
  · rintro ⟨m, hm, rfl, hconds⟩
    exact ⟨m, ⟨hm, (matchesFilter_iff f m).mpr hconds⟩, rfl⟩

/-- C5 witness: filtering `regTwo` by the tag `vcf` yields the summary of
`mGood`. -/
theorem listPlugins_mem_iff_witness :
    toSummary mGood ∈ listPlugins regTwo { tag := some "vcf" } := by
  refine (listPlugins_mem_iff regTwo { tag := some "vcf" } (toSummary mGood)).mpr
    ⟨mGood, List.mem_cons_self _ _, rfl, ?_, ?_, ?_⟩
  · intro t ht
    injection ht with h
    subst h
    decide
  · intro a ha
    exact Option.noConfusion ha
  · intro t ht
    exact Option.noConfusion ht

/-! C6.  Aggregate stats after publishing. -/

/-- C6: `stats` is recomputed from the published manifest set, and a
successful publish of a manifest carrying exactly two distinct tags unused
by every already-published manifest raises `total_plugins` by 1 and
`unique_tags` by 2. -/
theorem stats_publish_new_tags
    (mtr : List String) (resolve : String → String) (reg : List Manifest)
    (m : Manifest) (t1 t2 : String)
    (hpub : (publish mtr resolve reg m).1 = .ok)
    (htags : m.tags = [t1, t2]) (hne : t1 ≠ t2)
    (h1 : t1 ∉ allTags reg) (h2 : t2 ∉ allTags reg) :
    (stats (publish mtr resolve reg m).2).total_plugins =
      (stats reg).total_plugins + 1 ∧
    (stats (publish mtr resolve reg m).2).unique_tags =
      (stats reg).unique_tags + 2 := by
  cases hv : validate mtr m with
  | Invalid errs => simp [publish, hv] at hpub
  | Valid =>
    by_cases hc : reg.any (fun e => e.name == m.name && e.version == m.version) = true
    · simp [publish, hv, hc] at hpub
    · have hsnd : (publish mtr resolve reg m).2 = reg ++ [freezeDigest resolve m] := by
        simp [publish, hv, hc]
      rw [hsnd]
      constructor
      · simp [stats]
      · have hAll : allTags (reg ++ [freezeDigest resolve m]) = allTags reg ++ [t1, t2] := by
          have hfz : (freezeDigest resolve m).tags = m.tags := rfl
          simp [allTags, hfz, htags]
        simp only [stats, hAll, List.toFinset_append]
        rw [Finset.card_union_of_disjoint]
        · have hcard : ([t1, t2] : List String).toFinset.card = 2 := by
            rw [List.toFinset_cons, List.toFinset_cons, List.toFinset_nil]
            rw [Finset.card_insert_of_not_mem (by simp [hne])]
            simp
          rw [hcard]
        · rw [Finset.disjoint_left]
          intro x hx hx2
          rw [List.mem_toFinset] at hx hx2
          rcases List.mem_cons.mp hx2 with rfl | hx3
          · exact h1 hx
          · rcases List.mem_cons.mp hx3 with rfl | hx4
            · exact h2 hx
            · exact absurd hx4 (List.not_mem_nil x)

/-- C6 witness: publishing `mSecond` (two fresh tags) over `regOne`. -/
theorem stats_publish_new_tags_witness :
    (stats (publish initialMediaTypes resolve0 regOne mSecond).2).total_plugins =
      (stats regOne).total_plugins + 1 ∧
    (stats (publish initialMediaTypes resolve0 regOne mSecond).2).unique_tags =
      (stats regOne).unique_tags + 2 :=
  stats_publish_new_tags initialMediaTypes resolve0 regOne mSecond "expr" "rna"
    (by decide) rfl (by decide) (by decide) (by decide)

/-! C8.  Serialize/parse round-trip for the manifest document form. -/

theorem mapM_map_roundtrip {α β : Type} (f : α → β) (g : β → Option α)
    (h : ∀ a, g (f a) = some a) (xs : List α) :
    (xs.map f).mapM g = some xs := by
  induction xs with
  | nil => rfl
  | cons a t ih =>
    rw [List.map_cons, List.mapM_cons, h a, ih]
    rfl

theorem inPort_rt (p : PluginPortIn) : inPortOfJson (inPortToJson p) = some p := by
  rcases p with ⟨n, d, mt, o⟩
  cases o <;> rfl

theorem outPort_rt (p : PluginPortOut) : outPortOfJson (outPortToJson p) = some p := by
  rcases p with ⟨n, d, mt⟩
  rfl

theorem provenance_rt (p : PluginProvenance) : provOfJson (provToJson p) = some p := by
  rcases p with ⟨img, dg, ru, rf⟩
  rcases dg with _ | (_ | dgs) <;> rcases ru with _ | (_ | rus) <;>
    rcases rf with _ | (_ | rfs) <;> rfl

theorem manifestOfJson_toJson (m : PluginManifest) :
    manifestOfJson (manifestToJson m) = some m := by
  rcases m with ⟨n, v, d, au, e, ca, ua, ins, outs, tg, pv, rs⟩
  have hins := mapM_map_roundtrip inPortToJson inPortOfJson inPort_rt ins
  have houts := mapM_map_roundtrip outPortToJson outPortOfJson outPort_rt outs
  have hau : (au.map Json.jstr).mapM asStr = some au :=
    mapM_map_roundtrip Json.jstr asStr (fun _ => rfl) au
  have htg : (tg.map Json.jstr).mapM asStr = some tg :=
    mapM_map_roundtrip Json.jstr asStr (fun _ => rfl) tg
  have hpv := provenance_rt pv
  have hins2 : List.mapM.loop inPortOfJson (List.map inPortToJson ins) [] = some ins := hins
  have houts2 : List.mapM.loop outPortOfJson (List.map outPortToJson outs) [] = some outs :=
    houts
  have hau2 : List.mapM.loop asStr (List.map Json.jstr au) [] = some au := hau
  have htg2 : List.mapM.loop asStr (List.map Json.jstr tg) [] = some tg := htg
  rcases rs with _ | (_ | kvs)
  · simp [manifestToJson, manifestOfJson, resourcesToJson, readResources,
      List.lookup, asStr, asStrList, strArr, hins2, houts2, hau2, htg2, hpv]
  · simp [manifestToJson, manifestOfJson, resourcesToJson, readResources,
      List.lookup, asStr, asStrList, strArr, hins2, houts2, hau2, htg2, hpv]
  · have hkv : List.mapM.loop kvOfJson (List.map (fun kv => (kv.1, Json.jstr kv.2)) kvs) []
        = some kvs :=
      mapM_map_roundtrip
        ((fun kv => (kv.1, Json.jstr kv.2)) : String × String → String × Json)
        kvOfJson (fun _ => rfl) kvs
    simp [manifestToJson, manifestOfJson, resourcesToJson, readResources,
      List.lookup, asStr, asStrList, strArr, hins2, houts2, hau2, htg2, hpv, hkv]

/-- C8: serializing a manifest to its document form and re-parsing yields a
structurally equal manifest, field for field (timestamps are carried as
strings and thus kept to the same precision); in particular this holds for
the serialized sample manifest of the registration page. -/
theorem manifest_roundtrip :
    (∀ m : PluginManifest, manifestOfJson (manifestToJson m) = some m) ∧
    (∀ now, manifestOfJson (manifestToJson (buildSampleManifest now)) =
      some (buildSampleManifest now)) :=
  ⟨manifestOfJson_toJson, fun now => manifestOfJson_toJson (buildSampleManifest now)⟩

end PGIP
